import Mathlib

/-!
# parallel-install/pkg/git/clone.go

A shallow embedding of `CloneRepo`, `CloneRevision` and `remoteRepoCloner.Clone`.

The Go functions act on the outside world (network, file system) through
`ResolveRevision`, the `repoCloner` interface and the go-git library.  Here the
world is an explicit state of an arbitrary type `σ` that is threaded through
every call; each external operation is a function from the world to a result
and a new world.  A Go `error` result is `Option GoError` (`none` is `nil`), a
Go `(value, error)` result is `Except GoError value`.
-/

set_option maxRecDepth 100000

namespace Hydroform

/-! ## Errors (github.com/pkg/errors) -/

/-- Go error values: a plain error carrying its message, and the two layers
that `errors.Wrap` and `errors.Wrapf` put around a cause: `withMessage`, which
holds the message, and `withStack`, which holds the call stack (left out). -/
inductive GoError where
  | base (msg : String)
  | withMessage (cause : GoError) (msg : String)
  | withStack (err : GoError)
  deriving DecidableEq, Repr

namespace GoError

/-- The method `Error()`: a `withMessage` prints its message, a colon and a
blank, then its cause; a `withStack` prints the error it holds. -/
def Error : GoError → String
  | base msg => msg
  | withMessage cause msg => msg ++ ": " ++ cause.Error
  | withStack err => err.Error

/-- The method `Cause()` of the two wrapper layers; a plain error has none. -/
def causer : GoError → Option GoError
  | base _ => none
  | withMessage cause _ => some cause
  | withStack err => some err

/-- The function `errors.Cause`: follow `Cause()` down to the error that has
none. -/
def Cause : GoError → GoError
  | base msg => base msg
  | withMessage cause _ => cause.Cause
  | withStack err => err.Cause

end GoError

/-- Function `errors.Wrap(err, message)` for a non-nil `err`; `errors.Wrapf`
is the same on the formatted message. -/
def Wrap (err : GoError) (message : String) : GoError :=
  GoError.withStack (GoError.withMessage err message)

/-- Function `fmt.Sprintf("Error downloading repository (%s)", repoURL)`. -/
def downloadMessage (repoURL : String) : String :=
  "Error downloading repository (" ++ repoURL ++ ")"

/-- The text is contained in the string, as a run of consecutive characters. -/
def Contains (s text : String) : Prop :=
  text.data <:+: s.data

instance (s text : String) : Decidable (Contains s text) :=
  inferInstanceAs (Decidable (text.data <:+: s.data))

/-! ## go-git option structs -/

/-- Struct `git.CloneOptions` of go-git v4; every field has Go's zero value
unless it is set. `Depth = 0` asks for the whole history. -/
structure CloneOptions where
  URL : String := ""
  Auth : Option String := none
  RemoteName : String := ""
  ReferenceName : String := ""
  SingleBranch : Bool := false
  NoCheckout : Bool := false
  Depth : Int := 0
  RecurseSubmodules : Nat := 0
  Progress : Option String := none
  Tags : Int := 0
  deriving DecidableEq, Repr

/-- Struct `git.CheckoutOptions` of go-git v4 except for the field `Hash`,
which is kept apart because its zero value depends on the hash type. -/
structure CheckoutFlags where
  Branch : String := ""
  Create : Bool := false
  Force : Bool := false
  Keep : Bool := false
  deriving DecidableEq, Repr

/-- Struct `git.CheckoutOptions`: the target hash and the remaining fields. -/
structure CheckoutOptions (Hash : Type) where
  Hash : Hash
  flags : CheckoutFlags := {}
  deriving DecidableEq, Repr

/-! ## The external operations -/

/-- The go-git functions that clone.go calls. `Repo` is `*git.Repository`,
`WT` is `*git.Worktree`, `Hash` is `plumbing.Hash`. The context argument of
`PlainCloneContext`, always `context.Background()`, is left out. -/
structure GitLib (σ Repo WT Hash : Type) where
  PlainCloneContext : String → Bool → CloneOptions → σ → Except GoError Repo × σ
  Worktree : Repo → σ → Except GoError WT × σ
  Checkout : WT → CheckoutOptions Hash → σ → Option GoError × σ
  NewHash : String → Hash

/-- Interface `repoCloner`. The declaration names the third argument
`noCheckout`; the one implementation and the one caller both treat it as
`autoCheckout`, and so does the embedding. -/
structure repoCloner (σ Repo : Type) where
  Clone : String → String → Bool → σ → Except GoError Repo × σ

/-- Method `(*remoteRepoCloner).Clone`. -/
def remoteRepoCloner {σ Repo WT Hash : Type} (git : GitLib σ Repo WT Hash) :
    repoCloner σ Repo where
  Clone := fun url path autoCheckout =>
    git.PlainCloneContext path false
      { Depth := 0, URL := url, NoCheckout := !autoCheckout }

/-- What the package reaches beyond clone.go: the go-git library, the package
variable `defaultCloner` and the function `ResolveRevision`, whose source is
in another file of the package. -/
structure Env (σ Repo WT Hash : Type) where
  git : GitLib σ Repo WT Hash
  defaultCloner : repoCloner σ Repo
  ResolveRevision : String → String → σ → Except GoError String × σ

/-- The package as initialised: `defaultCloner` holds a `remoteRepoCloner`. -/
def Env.initial {σ Repo WT Hash : Type} (git : GitLib σ Repo WT Hash)
    (ResolveRevision : String → String → σ → Except GoError String × σ) :
    Env σ Repo WT Hash where
  git := git
  defaultCloner := remoteRepoCloner git
  ResolveRevision := ResolveRevision

/-! ## clone.go -/

/-- Function `CloneRevision`. -/
def CloneRevision {σ Repo WT Hash : Type} (env : Env σ Repo WT Hash)
    (repoURL dstPath rev : String) (w : σ) : Option GoError × σ :=
  let autoCheckout := rev == ""
  match env.defaultCloner.Clone repoURL dstPath autoCheckout w with
  | (.error err, w1) => (some (Wrap err (downloadMessage repoURL)), w1)
  | (.ok r, w1) =>
    if !autoCheckout then
      match env.git.Worktree r w1 with
      | (.error err, w2) => (some (Wrap err "Error getting the worktree"), w2)
      | (.ok wt, w2) =>
        match env.git.Checkout wt { Hash := env.git.NewHash rev } w2 with
        | (some err, w3) => (some (Wrap err "Error checking out revision"), w3)
        | (none, w3) => (none, w3)
    else (none, w1)

/-- Function `CloneRepo`. -/
def CloneRepo {σ Repo WT Hash : Type} (env : Env σ Repo WT Hash)
    (url dstPath rev : String) (w : σ) : Option GoError × σ :=
  match env.ResolveRevision url rev w with
  | (.error err, w1) => (some err, w1)
  | (.ok rev, w1) =>
    match CloneRevision env url dstPath rev w1 with
    | (some err, w2) => (some err, w2)
    | (none, w2) => (none, w2)

/-! ## Recording the calls

The code above is run against an environment that writes every call it
receives, with its arguments and whether it failed, to a log kept next to the
world.  The log is how the statements below speak of which operations a run
invoked, in which order and with which arguments. -/

/-- One call to an external operation, with its arguments. -/
inductive Call (Hash : Type) where
  | resolve (url rev : String)
  | clone (url path : String) (autoCheckout : Bool)
  | plainClone (path : String) (isBare : Bool) (o : CloneOptions)
  | worktree
  | checkout (o : CheckoutOptions Hash)
  deriving DecidableEq, Repr

/-- A logged call and whether it returned an error. -/
structure Entry (Hash : Type) where
  call : Call Hash
  failed : Bool
  deriving DecidableEq, Repr

/-- The phase a call belongs to, arguments forgotten. -/
inductive Phase where
  | resolve | clone | plainClone | worktree | checkout
  deriving DecidableEq, Repr

/-- The phase of a call. -/
def Call.phase {Hash : Type} : Call Hash → Phase
  | .resolve _ _ => .resolve
  | .clone _ _ _ => .clone
  | .plainClone _ _ _ => .plainClone
  | .worktree => .worktree
  | .checkout _ => .checkout

instance {α : Type} [DecidableEq α] : DecidableEq (Except GoError α)
  | .error a, .error b => if h : a = b then isTrue (by rw [h]) else isFalse (by simpa using h)
  | .ok a, .ok b => if h : a = b then isTrue (by rw [h]) else isFalse (by simpa using h)
  | .error _, .ok _ => isFalse (by simp)
  | .ok _, .error _ => isFalse (by simp)

/-- Whether a `(value, error)` result carries an error. -/
def isError {α : Type} : Except GoError α → Bool
  | .error _ => true
  | .ok _ => false

/-- Run an operation on the world and append its log entry. -/
def logged {σ Hash α : Type} (call : Call Hash) (failed : α → Bool)
    (op : σ → α × σ) (s : σ × List (Entry Hash)) : α × (σ × List (Entry Hash)) :=
  match op s.1 with
  | (a, w) => (a, (w, s.2 ++ [⟨call, failed a⟩]))

/-- The go-git library, logging its calls. -/
def GitLib.recorded {σ Repo WT Hash : Type} (git : GitLib σ Repo WT Hash) :
    GitLib (σ × List (Entry Hash)) Repo WT Hash where
  PlainCloneContext := fun path isBare o =>
    logged (.plainClone path isBare o) isError (git.PlainCloneContext path isBare o)
  Worktree := fun r => logged .worktree isError (git.Worktree r)
  Checkout := fun wt o => logged (.checkout o) Option.isSome (git.Checkout wt o)
  NewHash := git.NewHash

/-- A cloner, logging its calls. -/
def repoCloner.recorded {σ Repo : Type} (Hash : Type) (c : repoCloner σ Repo) :
    repoCloner (σ × List (Entry Hash)) Repo where
  Clone := fun url path autoCheckout =>
    logged (.clone url path autoCheckout) isError (c.Clone url path autoCheckout)

/-- An environment, logging the calls to `ResolveRevision`, to the cloner and
to the go-git worktree and checkout. -/
def Env.recorded {σ Repo WT Hash : Type} (env : Env σ Repo WT Hash) :
    Env (σ × List (Entry Hash)) Repo WT Hash where
  git := env.git.recorded
  defaultCloner := env.defaultCloner.recorded Hash
  ResolveRevision := fun url rev =>
    logged (.resolve url rev) isError (env.ResolveRevision url rev)

/-- The package as initialised, over a go-git library that logs its calls:
the log shows the plain clone that `remoteRepoCloner` issues. -/
def Env.initialRecorded {σ Repo WT Hash : Type} (git : GitLib σ Repo WT Hash)
    (ResolveRevision : String → String → σ → Except GoError String × σ) :
    Env (σ × List (Entry Hash)) Repo WT Hash :=
  Env.initial git.recorded
    (fun url rev => logged (.resolve url rev) isError (ResolveRevision url rev))

/-- The log of a run of `CloneRevision` started with an empty log. -/
def CloneRevision.log {σ Repo WT Hash : Type} (env : Env σ Repo WT Hash)
    (repoURL dstPath rev : String) (w : σ) : List (Entry Hash) :=
  (CloneRevision env.recorded repoURL dstPath rev (w, [])).2.2

/-- The log of a run of `CloneRepo` started with an empty log. -/
def CloneRepo.log {σ Repo WT Hash : Type} (env : Env σ Repo WT Hash)
    (url dstPath rev : String) (w : σ) : List (Entry Hash) :=
  (CloneRepo env.recorded url dstPath rev (w, [])).2.2

/-! ## The five ways through `CloneRevision` -/

/-- The shape of a run of `CloneRevision`, by the results of the operations. -/
inductive RevisionPath {σ Repo WT Hash : Type} (env : Env σ Repo WT Hash)
    (repoURL dstPath rev : String) (w : σ) : Option GoError → σ → List (Entry Hash) → Prop
  | cloneFailed (e : GoError) (w1 : σ)
      (hc : env.defaultCloner.Clone repoURL dstPath (rev == "") w = (.error e, w1)) :
      RevisionPath env repoURL dstPath rev w
        (some (Wrap e (downloadMessage repoURL))) w1
        [⟨.clone repoURL dstPath (rev == ""), true⟩]
  | auto (r : Repo) (w1 : σ) (hrev : rev = "")
      (hc : env.defaultCloner.Clone repoURL dstPath (rev == "") w = (.ok r, w1)) :
      RevisionPath env repoURL dstPath rev w none w1
        [⟨.clone repoURL dstPath (rev == ""), false⟩]
  | worktreeFailed (r : Repo) (w1 : σ) (e : GoError) (w2 : σ) (hrev : rev ≠ "")
      (hc : env.defaultCloner.Clone repoURL dstPath (rev == "") w = (.ok r, w1))
      (hw : env.git.Worktree r w1 = (.error e, w2)) :
      RevisionPath env repoURL dstPath rev w
        (some (Wrap e "Error getting the worktree")) w2
        [⟨.clone repoURL dstPath (rev == ""), false⟩, ⟨.worktree, true⟩]
  | checkoutFailed (r : Repo) (w1 : σ) (wt : WT) (w2 : σ) (e : GoError) (w3 : σ)
      (hrev : rev ≠ "")
      (hc : env.defaultCloner.Clone repoURL dstPath (rev == "") w = (.ok r, w1))
      (hw : env.git.Worktree r w1 = (.ok wt, w2))
      (hk : env.git.Checkout wt { Hash := env.git.NewHash rev } w2 = (some e, w3)) :
      RevisionPath env repoURL dstPath rev w
        (some (Wrap e "Error checking out revision")) w3
        [⟨.clone repoURL dstPath (rev == ""), false⟩, ⟨.worktree, false⟩,
          ⟨.checkout { Hash := env.git.NewHash rev }, true⟩]
  | checkedOut (r : Repo) (w1 : σ) (wt : WT) (w2 : σ) (w3 : σ) (hrev : rev ≠ "")
      (hc : env.defaultCloner.Clone repoURL dstPath (rev == "") w = (.ok r, w1))
      (hw : env.git.Worktree r w1 = (.ok wt, w2))
      (hk : env.git.Checkout wt { Hash := env.git.NewHash rev } w2 = (none, w3)) :
      RevisionPath env repoURL dstPath rev w none w3
        [⟨.clone repoURL dstPath (rev == ""), false⟩, ⟨.worktree, false⟩,
          ⟨.checkout { Hash := env.git.NewHash rev }, false⟩]

/-- The shape of a run of `CloneRepo`: resolution fails, or it yields a
revision and `CloneRevision` runs on it. -/
inductive RepoPath {σ Repo WT Hash : Type} (env : Env σ Repo WT Hash)
    (url dstPath rev : String) (w : σ) : Option GoError → σ → List (Entry Hash) → Prop
  | resolveFailed (e : GoError) (w1 : σ)
      (hr : env.ResolveRevision url rev w = (.error e, w1)) :
      RepoPath env url dstPath rev w (some e) w1 [⟨.resolve url rev, true⟩]
  | resolved (h : String) (w1 : σ) (err : Option GoError) (w2 : σ)
      (calls : List (Entry Hash))
      (hr : env.ResolveRevision url rev w = (.ok h, w1))
      (hp : RevisionPath env url dstPath h w1 err w2 calls) :
      RepoPath env url dstPath rev w err w2 (⟨.resolve url rev, false⟩ :: calls)

/-! ## A model of the version-control backend

Remote repositories hold the tree of their default branch tip and the trees of
their commits.  A clone with checkout materialises the default branch tip at
the destination, a clone without checkout materialises nothing, and a checkout
sets the working tree to the tree of the requested commit. -/

/-- A tree: file names with their contents. -/
abbrev Tree := List (String × String)

/-- A remote repository. -/
structure Remote (Hash : Type) where
  tip : Tree
  commits : List (Hash × Tree)
  deriving DecidableEq, Repr

/-- A repository on the local disk. -/
structure LocalRepo (Hash : Type) where
  origin : String
  bare : Bool
  objects : List (Hash × Tree)
  workTree : Tree
  deriving DecidableEq, Repr

/-- The world of the model: remote repositories by URL, local ones by path. -/
structure World (Hash : Type) where
  remotes : List (String × Remote Hash)
  locals : List (String × LocalRepo Hash)
  deriving DecidableEq, Repr

/-- The working tree at a path, if a repository is there. -/
def World.workTreeAt {Hash : Type} (w : World Hash) (path : String) : Option Tree :=
  (w.locals.lookup path).map (fun l => l.workTree)

/-- The tree of the default branch tip of the repository at a URL. -/
def World.tipOf {Hash : Type} (w : World Hash) (url : String) : Option Tree :=
  (w.remotes.lookup url).map (fun r => r.tip)

/-- The tree of a commit of the repository at a URL. -/
def World.treeOf {Hash : Type} [DecidableEq Hash] (w : World Hash) (url : String)
    (hash : Hash) : Option Tree :=
  (w.remotes.lookup url).bind (fun r => r.commits.lookup hash)

/-- The model backend: a clone fails when no remote answers the URL or when
the destination already holds a repository; the worktree of a bare repository
is refused; a checkout fails when the repository does not hold the commit. -/
def modelGit {Hash : Type} [DecidableEq Hash] (NewHash : String → Hash) :
    GitLib (World Hash) String String Hash where
  PlainCloneContext := fun path isBare o w =>
    match w.remotes.lookup o.URL with
    | none => (.error (.base "repository not found"), w)
    | some remote =>
      match w.locals.lookup path with
      | some _ => (.error (.base "repository already exists"), w)
      | none =>
        (.ok path, { w with locals := (path,
            { origin := o.URL, bare := isBare, objects := remote.commits,
              workTree := if isBare || o.NoCheckout then [] else remote.tip }) :: w.locals })
  Worktree := fun r w =>
    match w.locals.lookup r with
    | none => (.error (.base "repository does not exist"), w)
    | some l =>
      if l.bare then (.error (.base "worktree not available in a bare repository"), w)
      else (.ok r, w)
  Checkout := fun wt o w =>
    match w.locals.lookup wt with
    | none => (some (.base "repository does not exist"), w)
    | some l =>
      match l.objects.lookup o.Hash with
      | none => (some (.base "object not found"), w)
      | some tree => (none, { w with locals := (wt, { l with workTree := tree }) :: w.locals })
  NewHash := NewHash

/-- The package as initialised, over the model backend, with a resolver that
reads the world and leaves it as it is. -/
def modelEnv {Hash : Type} [DecidableEq Hash] (NewHash : String → Hash)
    (resolve : String → String → World Hash → Except GoError String) :
    Env (World Hash) String String Hash :=
  Env.initial (modelGit NewHash) (fun url rev w => (resolve url rev w, w))

/-! ## A sample world -/

/-- One remote repository with two commits, nothing on the local disk. -/
def sampleWorld : World String where
  remotes := [("git://h/r",
    ⟨[("README", "two")], [("a1", [("README", "one")]), ("b2", [("README", "two")])]⟩)]
  locals := []

/-- A resolver: the empty specifier resolves to the empty revision, the name
of a commit of the remote to itself, anything else is an error. -/
def sampleResolve (url rev : String) (w : World String) : Except GoError String :=
  if rev = "" then .ok ""
  else if (w.treeOf url rev).isSome then .ok rev
  else .error (.base "unknown revision")

/-- The sample environment: the package as initialised over the model. -/
def sampleEnv : Env (World String) String String String :=
  modelEnv id sampleResolve

/-- A cloner for tests that hands out a bare repository whatever it is asked. -/
def bareCloner : repoCloner (World String) String where
  Clone := fun url path _ w => (modelGit id).PlainCloneContext path true { URL := url } w

/-- The sample environment with the bare cloner as `defaultCloner`. -/
def bareEnv : Env (World String) String String String :=
  { sampleEnv with defaultCloner := bareCloner }

/-- The sample world after a clone without checkout to `/tmp/x`. -/
def sampleCloned : World String where
  remotes := sampleWorld.remotes
  locals := [("/tmp/x", ⟨"git://h/r", false,
    [("a1", [("README", "one")]), ("b2", [("README", "two")])], []⟩)]

/-- The sample environment as initialised over the model backend that logs
its calls. -/
def sampleRecorded : Env (World String × List (Entry String)) String String String :=
  Env.initialRecorded (modelGit id) (fun url rev w => (sampleResolve url rev w, w))

/-- The sample environment with a resolver that answers a revision the
remote does not hold. -/
def staleEnv : Env (World String) String String String :=
  modelEnv id (fun _ _ _ => .ok "ff")

/-! ## Where a returned error comes from -/

/-- The error `e` returned by `CloneRepo` is the error of `ResolveRevision`
itself, or the error `c` of the clone wrapped in the download message that
holds the URL, or the error `c` of `Worktree` or of `Checkout` wrapped in the
message of that phase. A wrapper prints its message, a colon and the text of
`c`, and has the cause of `c` as its cause. -/
def ErrorOrigin {σ Repo WT Hash : Type} (env : Env σ Repo WT Hash)
    (url dstPath specifier : String) (w : σ) (e : GoError) : Prop :=
  (∃ w1, env.ResolveRevision url specifier w = (.error e, w1)) ∨
  ∃ h w1, env.ResolveRevision url specifier w = (.ok h, w1) ∧
    ((∃ c w2, env.defaultCloner.Clone url dstPath (h == "") w1 = (.error c, w2) ∧
        e = Wrap c ("Error downloading repository (" ++ url ++ ")") ∧
        e.Error = "Error downloading repository (" ++ url ++ "): " ++ c.Error ∧
        Contains e.Error url ∧ e.Cause = c.Cause) ∨
      (∃ r w2 c w3, env.defaultCloner.Clone url dstPath (h == "") w1 = (.ok r, w2) ∧
        env.git.Worktree r w2 = (.error c, w3) ∧
        e = Wrap c "Error getting the worktree" ∧
        e.Error = "Error getting the worktree: " ++ c.Error ∧ e.Cause = c.Cause) ∨
      (∃ r w2 wt w3 c w4, env.defaultCloner.Clone url dstPath (h == "") w1 = (.ok r, w2) ∧
        env.git.Worktree r w2 = (.ok wt, w3) ∧
        env.git.Checkout wt { Hash := env.git.NewHash h } w3 = (some c, w4) ∧
        e = Wrap c "Error checking out revision" ∧
        e.Error = "Error checking out revision: " ++ c.Error ∧ e.Cause = c.Cause))

/-! # Lemmas -/

/-! ## The recorded operations, unfolded -/

theorem recorded_Clone {σ Repo WT Hash : Type} (env : Env σ Repo WT Hash)
    (url path : String) (ac : Bool) (w w1 : σ) (t : List (Entry Hash))
    (res : Except GoError Repo) (h : env.defaultCloner.Clone url path ac w = (res, w1)) :
    env.recorded.defaultCloner.Clone url path ac (w, t)
      = (res, (w1, t ++ [⟨.clone url path ac, isError res⟩])) := by
  show logged _ _ (env.defaultCloner.Clone url path ac) (w, t) = _
  simp [logged, h]

theorem recorded_Worktree {σ Repo WT Hash : Type} (env : Env σ Repo WT Hash)
    (r : Repo) (w w1 : σ) (t : List (Entry Hash))
    (res : Except GoError WT) (h : env.git.Worktree r w = (res, w1)) :
    env.recorded.git.Worktree r (w, t)
      = (res, (w1, t ++ [⟨.worktree, isError res⟩])) := by
  show logged _ _ (env.git.Worktree r) (w, t) = _
  simp [logged, h]

theorem recorded_Checkout {σ Repo WT Hash : Type} (env : Env σ Repo WT Hash)
    (wt : WT) (o : CheckoutOptions Hash) (w w1 : σ) (t : List (Entry Hash))
    (res : Option GoError) (h : env.git.Checkout wt o w = (res, w1)) :
    env.recorded.git.Checkout wt o (w, t)
      = (res, (w1, t ++ [⟨.checkout o, res.isSome⟩])) := by
  show logged _ _ (env.git.Checkout wt o) (w, t) = _
  simp [logged, h]

theorem recorded_Resolve {σ Repo WT Hash : Type} (env : Env σ Repo WT Hash)
    (url rev : String) (w w1 : σ) (t : List (Entry Hash))
    (res : Except GoError String) (h : env.ResolveRevision url rev w = (res, w1)) :
    env.recorded.ResolveRevision url rev (w, t)
      = (res, (w1, t ++ [⟨.resolve url rev, isError res⟩])) := by
  show logged _ _ (env.ResolveRevision url rev) (w, t) = _
  simp [logged, h]

theorem recorded_NewHash {σ Repo WT Hash : Type} (env : Env σ Repo WT Hash) (rev : String) :
    env.recorded.git.NewHash rev = env.git.NewHash rev := rfl

/-- Every run of `CloneRevision` takes one of the five ways; the run against
the recording environment returns the same error and world, and extends the
log by the calls of that way. -/
theorem CloneRevision_path {σ Repo WT Hash : Type} (env : Env σ Repo WT Hash)
    (repoURL dstPath rev : String) (w : σ) :
    ∃ err w1 calls, RevisionPath env repoURL dstPath rev w err w1 calls ∧
      CloneRevision env repoURL dstPath rev w = (err, w1) ∧
      ∀ t, CloneRevision env.recorded repoURL dstPath rev (w, t) = (err, (w1, t ++ calls)) := by
  rcases hc : env.defaultCloner.Clone repoURL dstPath (rev == "") w with ⟨e | r, w1⟩
  · refine ⟨_, _, _, .cloneFailed e w1 hc, ?_, fun t => ?_⟩
    · simp only [CloneRevision, hc]
    · simp only [CloneRevision, recorded_Clone env _ _ _ _ _ t _ hc, isError]
  · by_cases hrev : rev = ""
    · have hb : (rev == "") = true := by simpa using hrev
      refine ⟨_, _, _, .auto r w1 hrev hc, ?_, fun t => ?_⟩
      · simp only [CloneRevision, hc]
        simp [hb]
      · simp only [CloneRevision, recorded_Clone env _ _ _ _ _ t _ hc, isError]
        simp [hb]
    · have hb : (rev == "") = false := by simpa using hrev
      rcases hw : env.git.Worktree r w1 with ⟨e | wt, w2⟩
      · refine ⟨_, _, _, .worktreeFailed r w1 e w2 hrev hc hw, ?_, fun t => ?_⟩
        · simp only [CloneRevision, hc, hw]
          simp [hb]
        · simp only [CloneRevision, recorded_Clone env _ _ _ _ _ t _ hc, isError,
            recorded_Worktree env _ _ _ _ _ hw]
          simp [hb]
      · rcases hk : env.git.Checkout wt { Hash := env.git.NewHash rev } w2 with ⟨_ | e, w3⟩
        · refine ⟨_, _, _, .checkedOut r w1 wt w2 w3 hrev hc hw hk, ?_, fun t => ?_⟩
          · simp only [CloneRevision, hc, hw, hk]
            simp [hb]
          · simp only [CloneRevision, recorded_Clone env _ _ _ _ _ t _ hc, isError,
              recorded_Worktree env _ _ _ _ _ hw, recorded_NewHash,
              recorded_Checkout env _ _ _ _ _ _ hk]
            simp [hb]
        · refine ⟨_, _, _, .checkoutFailed r w1 wt w2 e w3 hrev hc hw hk, ?_, fun t => ?_⟩
          · simp only [CloneRevision, hc, hw, hk]
            simp [hb]
          · simp only [CloneRevision, recorded_Clone env _ _ _ _ _ t _ hc, isError,
              recorded_Worktree env _ _ _ _ _ hw, recorded_NewHash,
              recorded_Checkout env _ _ _ _ _ _ hk]
            simp [hb]

/-- Every run of `CloneRepo` takes one of these ways; the run against the
recording environment returns the same error and world, and extends the log
by the calls of that way. -/
theorem CloneRepo_path {σ Repo WT Hash : Type} (env : Env σ Repo WT Hash)
    (url dstPath rev : String) (w : σ) :
    ∃ err w1 calls, RepoPath env url dstPath rev w err w1 calls ∧
      CloneRepo env url dstPath rev w = (err, w1) ∧
      ∀ t, CloneRepo env.recorded url dstPath rev (w, t) = (err, (w1, t ++ calls)) := by
  rcases hr : env.ResolveRevision url rev w with ⟨e | h, w1⟩
  · refine ⟨_, _, _, .resolveFailed e w1 hr, ?_, fun t => ?_⟩
    · simp only [CloneRepo, hr]
    · simp only [CloneRepo, recorded_Resolve env _ _ _ _ t _ hr, isError]
  · obtain ⟨err, w2, calls, hp, hrun, hrec⟩ := CloneRevision_path env url dstPath h w1
    refine ⟨err, w2, _, .resolved h w1 err w2 calls hr hp, ?_, fun t => ?_⟩
    · simp only [CloneRepo, hr, hrun]
      cases err <;> rfl
    · simp only [CloneRepo, recorded_Resolve env _ _ _ _ t _ hr, isError, hrec]
      cases err <;> simp

/-- The log of a run of `CloneRevision` is the list of calls of its way. -/
theorem CloneRevision_log_path {σ Repo WT Hash : Type} (env : Env σ Repo WT Hash)
    (repoURL dstPath rev : String) (w : σ) :
    ∃ err w1, RevisionPath env repoURL dstPath rev w err w1
        (CloneRevision.log env repoURL dstPath rev w) ∧
      CloneRevision env repoURL dstPath rev w = (err, w1) := by
  obtain ⟨err, w1, calls, hp, hrun, hrec⟩ := CloneRevision_path env repoURL dstPath rev w
  refine ⟨err, w1, ?_, hrun⟩
  have hlog : CloneRevision.log env repoURL dstPath rev w = calls := by
    simp [CloneRevision.log, hrec]
  rw [hlog]
  exact hp

/-- The log of a run of `CloneRepo` is the list of calls of its way. -/
theorem CloneRepo_log_path {σ Repo WT Hash : Type} (env : Env σ Repo WT Hash)
    (url dstPath rev : String) (w : σ) :
    ∃ err w1, RepoPath env url dstPath rev w err w1
        (CloneRepo.log env url dstPath rev w) ∧
      CloneRepo env url dstPath rev w = (err, w1) := by
  obtain ⟨err, w1, calls, hp, hrun, hrec⟩ := CloneRepo_path env url dstPath rev w
  refine ⟨err, w1, ?_, hrun⟩
  have hlog : CloneRepo.log env url dstPath rev w = calls := by
    simp [CloneRepo.log, hrec]
  rw [hlog]
  exact hp

/-- After a successful resolution `CloneRepo` is `CloneRevision` on the
resolved revision. -/
theorem CloneRepo_of_resolved {σ Repo WT Hash : Type} (env : Env σ Repo WT Hash)
    (url dstPath specifier h : String) (w w1 : σ)
    (hr : env.ResolveRevision url specifier w = (.ok h, w1)) :
    CloneRepo env url dstPath specifier w = CloneRevision env url dstPath h w1 := by
  simp only [CloneRepo, hr]
  rcases CloneRevision env url dstPath h w1 with ⟨_ | e, w2⟩ <;> rfl

/-! ## The package as initialised, over the recording library -/

theorem initialRecorded_Clone {σ Repo WT Hash : Type} (git : GitLib σ Repo WT Hash)
    (res : String → String → σ → Except GoError String × σ)
    (url path : String) (ac : Bool) (w w1 : σ) (t : List (Entry Hash))
    (out : Except GoError Repo)
    (h : git.PlainCloneContext path false
      { Depth := 0, URL := url, NoCheckout := !ac } w = (out, w1)) :
    (Env.initialRecorded git res).defaultCloner.Clone url path ac (w, t)
      = (out, (w1, t ++ [⟨.plainClone path false
          { Depth := 0, URL := url, NoCheckout := !ac }, isError out⟩])) := by
  show logged _ _ (git.PlainCloneContext path false _) (w, t) = _
  simp [logged, h]

theorem initialRecorded_Worktree {σ Repo WT Hash : Type} (git : GitLib σ Repo WT Hash)
    (res : String → String → σ → Except GoError String × σ)
    (r : Repo) (w w1 : σ) (t : List (Entry Hash))
    (out : Except GoError WT) (h : git.Worktree r w = (out, w1)) :
    (Env.initialRecorded git res).git.Worktree r (w, t)
      = (out, (w1, t ++ [⟨.worktree, isError out⟩])) := by
  show logged _ _ (git.Worktree r) (w, t) = _
  simp [logged, h]

theorem initialRecorded_Checkout {σ Repo WT Hash : Type} (git : GitLib σ Repo WT Hash)
    (res : String → String → σ → Except GoError String × σ)
    (wt : WT) (o : CheckoutOptions Hash) (w w1 : σ) (t : List (Entry Hash))
    (out : Option GoError) (h : git.Checkout wt o w = (out, w1)) :
    (Env.initialRecorded git res).git.Checkout wt o (w, t)
      = (out, (w1, t ++ [⟨.checkout o, out.isSome⟩])) := by
  show logged _ _ (git.Checkout wt o) (w, t) = _
  simp [logged, h]

/-- The log of `CloneRevision` in the package as initialised: the plain clone
that `remoteRepoCloner` issues comes first and no other follows. -/
theorem initialRecorded_log {σ Repo WT Hash : Type} (git : GitLib σ Repo WT Hash)
    (res : String → String → σ → Except GoError String × σ)
    (repoURL dstPath rev : String) (w : σ) :
    ∃ failed rest,
      (CloneRevision (Env.initialRecorded git res) repoURL dstPath rev (w, [])).2.2
        = ⟨.plainClone dstPath false
            { Depth := 0, URL := repoURL, NoCheckout := !(rev == "") }, failed⟩ :: rest ∧
      ∀ c ∈ rest, c.call.phase ≠ .plainClone := by
  rcases hc : git.PlainCloneContext dstPath false
      { Depth := 0, URL := repoURL, NoCheckout := !(rev == "") } w with ⟨e | r, w1⟩
  · refine ⟨true, [], ?_, by simp⟩
    simp only [CloneRevision, initialRecorded_Clone git res _ _ _ _ _ [] _ hc, isError]
    rfl
  · by_cases hrev : rev = ""
    · have hb : (rev == "") = true := by simpa using hrev
      refine ⟨false, [], ?_, by simp⟩
      simp only [CloneRevision, initialRecorded_Clone git res _ _ _ _ _ [] _ hc, isError]
      simp [hb]
    · have hb : (rev == "") = false := by simpa using hrev
      rcases hw : git.Worktree r w1 with ⟨e | wt, w2⟩
      · refine ⟨false, [⟨.worktree, true⟩], ?_, by simp [Call.phase]⟩
        simp only [CloneRevision, initialRecorded_Clone git res _ _ _ _ _ [] _ hc, isError,
          initialRecorded_Worktree git res _ _ _ _ _ hw]
        simp [hb]
      · rcases hk : git.Checkout wt { Hash := git.NewHash rev } w2 with ⟨_ | e, w3⟩
        · refine ⟨false, [⟨.worktree, false⟩,
            ⟨.checkout { Hash := git.NewHash rev }, false⟩], ?_, by simp [Call.phase]⟩
          have hk2 : git.Checkout wt
              { Hash := (Env.initialRecorded git res).git.NewHash rev } w2 = (none, w3) := hk
          simp only [CloneRevision, initialRecorded_Clone git res _ _ _ _ _ [] _ hc, isError,
            initialRecorded_Worktree git res _ _ _ _ _ hw,
            initialRecorded_Checkout git res _ _ _ _ _ _ hk2]
          simp [hb]
          rfl
        · refine ⟨false, [⟨.worktree, false⟩,
            ⟨.checkout { Hash := git.NewHash rev }, true⟩], ?_, by simp [Call.phase]⟩
          have hk2 : git.Checkout wt
              { Hash := (Env.initialRecorded git res).git.NewHash rev } w2 = (some e, w3) := hk
          simp only [CloneRevision, initialRecorded_Clone git res _ _ _ _ _ [] _ hc, isError,
            initialRecorded_Worktree git res _ _ _ _ _ hw,
            initialRecorded_Checkout git res _ _ _ _ _ _ hk2]
          simp [hb]
          rfl

/-! # The claims -/

/-- C1. Fail-fast on a bad specifier: when `ResolveRevision` returns an error,
`CloneRepo` returns an error (that very one), the failed `ResolveRevision` is
the only call it makes, so neither the cloner's `Clone` nor `Worktree` nor
`Checkout` is invoked, and the world it leaves is the one `ResolveRevision`
left: `CloneRepo` does nothing to it, and whatever resolution leaves of the
state at `dstPath` is what it was before the call. -/
theorem CloneRepo_fail_fast {σ Repo WT Hash : Type} (env : Env σ Repo WT Hash)
    (url dstPath specifier : String) (w w1 : σ) (e : GoError)
    (h : env.ResolveRevision url specifier w = (.error e, w1)) :
    (CloneRepo env url dstPath specifier w).1 = some e ∧
      CloneRepo.log env url dstPath specifier w = [⟨.resolve url specifier, true⟩] ∧
      (∀ c ∈ CloneRepo.log env url dstPath specifier w,
        c.call.phase ≠ .clone ∧ c.call.phase ≠ .plainClone ∧
          c.call.phase ≠ .worktree ∧ c.call.phase ≠ .checkout) ∧
      (CloneRepo env url dstPath specifier w).2 = w1 ∧
      ∀ (α : Type) (state : σ → String → α), state w1 dstPath = state w dstPath →
        state (CloneRepo env url dstPath specifier w).2 dstPath = state w dstPath := by
  have hrun : CloneRepo env url dstPath specifier w = (some e, w1) := by
    simp only [CloneRepo, h]
  have hlog : CloneRepo.log env url dstPath specifier w
      = [⟨.resolve url specifier, true⟩] := by
    simp [CloneRepo.log, CloneRepo, recorded_Resolve env _ _ _ _ [] _ h, isError]
  refine ⟨by rw [hrun], hlog, ?_, by rw [hrun], ?_⟩
  · intro c hc
    rw [hlog] at hc
    simp only [List.mem_singleton] at hc
    subst hc
    simp [Call.phase]
  · intro α state hs
    rw [hrun]
    exact hs

/-- Witness of C1: an unknown revision in the sample world. -/
theorem CloneRepo_fail_fast_witness :
    sampleEnv.ResolveRevision "git://h/r" "zz" sampleWorld
        = (.error (.base "unknown revision"), sampleWorld) ∧
      (CloneRepo sampleEnv "git://h/r" "/tmp/x" "zz" sampleWorld).1
        = some (.base "unknown revision") ∧
      CloneRepo.log sampleEnv "git://h/r" "/tmp/x" "zz" sampleWorld
        = [⟨.resolve "git://h/r" "zz", true⟩] ∧
      (CloneRepo sampleEnv "git://h/r" "/tmp/x" "zz" sampleWorld).2 = sampleWorld :=
  have h := CloneRepo_fail_fast sampleEnv "git://h/r" "/tmp/x" "zz" sampleWorld sampleWorld
    (.base "unknown revision") (by decide)
  ⟨by decide, h.1, h.2.1, h.2.2.2.1⟩

/-- C2. `CloneRepo` is resolve-then-fetch: when `ResolveRevision` fails with
`e`, `CloneRepo` returns exactly `e`, not wrapped; when it yields the revision
`h`, `CloneRepo` returns exactly what `CloneRevision` returns for the same
`url` and `dstPath` and the revision `h`, run on the world resolution left. -/
theorem CloneRepo_resolve_then_fetch {σ Repo WT Hash : Type} (env : Env σ Repo WT Hash)
    (url dstPath specifier : String) (w : σ) :
    (∀ e w1, env.ResolveRevision url specifier w = (.error e, w1) →
        CloneRepo env url dstPath specifier w = (some e, w1)) ∧
      (∀ h w1, env.ResolveRevision url specifier w = (.ok h, w1) →
        CloneRepo env url dstPath specifier w = CloneRevision env url dstPath h w1) := by
  constructor
  · intro e w1 h
    simp only [CloneRepo, h]
  · intro h w1 hr
    exact CloneRepo_of_resolved env url dstPath specifier h w w1 hr

/-- Witness of C2: in the sample world the specifier `a1` resolves to `a1`,
and `CloneRepo` returns what `CloneRevision` returns for `a1`. -/
theorem CloneRepo_resolve_then_fetch_witness :
    sampleEnv.ResolveRevision "git://h/r" "a1" sampleWorld = (.ok "a1", sampleWorld) ∧
      CloneRepo sampleEnv "git://h/r" "/tmp/x" "a1" sampleWorld
        = CloneRevision sampleEnv "git://h/r" "/tmp/x" "a1" sampleWorld :=
  ⟨by decide,
    (CloneRepo_resolve_then_fetch sampleEnv "git://h/r" "/tmp/x" "a1" sampleWorld).2
      "a1" sampleWorld (by decide)⟩

/-- C3. `CloneRevision` returns nil if and only if the cloner's `Clone`
returned no error and either `rev` is the empty string or both obtaining the
worktree and the checkout to `rev` returned no error. -/
theorem CloneRevision_nil_iff {σ Repo WT Hash : Type} (env : Env σ Repo WT Hash)
    (repoURL dstPath rev : String) (w : σ) :
    (CloneRevision env repoURL dstPath rev w).1 = none ↔
      ∃ r w1, env.defaultCloner.Clone repoURL dstPath (rev == "") w = (.ok r, w1) ∧
        (rev = "" ∨ ∃ wt w2 w3, env.git.Worktree r w1 = (.ok wt, w2) ∧
          env.git.Checkout wt { Hash := env.git.NewHash rev } w2 = (none, w3)) := by
  obtain ⟨err, w9, calls, hp, hrun, -⟩ := CloneRevision_path env repoURL dstPath rev w
  rw [hrun]
  cases hp with
  | cloneFailed e w1 hc =>
    simp only [reduceCtorEq, false_iff, not_exists, not_and]
    intro r w1 hc2
    rw [hc] at hc2
    simp at hc2
  | auto r w1 hrev hc => exact ⟨fun _ => ⟨r, w9, hc, Or.inl hrev⟩, fun _ => rfl⟩
  | worktreeFailed r w1 e w2 hrev hc hw =>
    simp only [reduceCtorEq, false_iff, not_exists, not_and]
    intro r2 w12 hc2
    rw [hc] at hc2
    simp only [Prod.mk.injEq, Except.ok.injEq] at hc2
    obtain ⟨rfl, rfl⟩ := hc2
    rintro (h0 | ⟨wt, w2b, w3, hw2, -⟩)
    · exact hrev h0
    · rw [hw] at hw2
      simp at hw2
  | checkoutFailed r w1 wt w2 e w3 hrev hc hw hk =>
    simp only [reduceCtorEq, false_iff, not_exists, not_and]
    intro r2 w12 hc2
    rw [hc] at hc2
    simp only [Prod.mk.injEq, Except.ok.injEq] at hc2
    obtain ⟨rfl, rfl⟩ := hc2
    rintro (h0 | ⟨wt2, w2b, w3b, hw2, hk2⟩)
    · exact hrev h0
    · rw [hw] at hw2
      simp only [Prod.mk.injEq, Except.ok.injEq] at hw2
      obtain ⟨rfl, rfl⟩ := hw2
      rw [hk] at hk2
      simp at hk2
  | checkedOut r w1 wt w2 w3 hrev hc hw hk =>
    exact ⟨fun _ => ⟨r, w1, hc, Or.inr ⟨wt, w2, w9, hw, hk⟩⟩, fun _ => rfl⟩

/-- C4, as stated, fails: a resolution error comes back as it is, with no
wrapper and no URL in its message, and the errors of the worktree and of the
checkout are wrapped in messages that do not hold the URL. -/
theorem CloneRepo_error_without_url :
    (CloneRepo sampleEnv "git://h/r" "/tmp/x" "zz" sampleWorld).1
        = some (.base "unknown revision") ∧
      (GoError.base "unknown revision").causer = none ∧
      ¬ Contains (GoError.base "unknown revision").Error "git://h/r" ∧
      (CloneRepo staleEnv "git://h/r" "/tmp/x" "zz" sampleWorld).1
        = some (Wrap (.base "object not found") "Error checking out revision") ∧
      (Wrap (.base "object not found") "Error checking out revision").Error
        = "Error checking out revision: object not found" ∧
      ¬ Contains "Error checking out revision: object not found" "git://h/r" ∧
      (CloneRepo bareEnv "git://h/r" "/tmp/x" "a1" sampleWorld).1
        = some (Wrap (.base "worktree not available in a bare repository")
            "Error getting the worktree") ∧
      (Wrap (.base "worktree not available in a bare repository")
            "Error getting the worktree").Error
        = "Error getting the worktree: worktree not available in a bare repository" ∧
      ¬ Contains "Error getting the worktree: worktree not available in a bare repository"
        "git://h/r" := by
  refine ⟨by decide, by decide, by decide, by decide, by decide, by decide, by decide,
    by decide, by decide⟩

/-- C4, amended. An error returned by `CloneRepo` is the error of
`ResolveRevision` unchanged, or the clone error wrapped in the message
`Error downloading repository (url)`, which holds the URL, or the error of
`Worktree` wrapped in `Error getting the worktree`, or the error of `Checkout`
wrapped in `Error checking out revision`; every wrapper prints its message, a
colon and the underlying error, and has the cause of the underlying error as
its cause. -/
theorem CloneRepo_error_origin {σ Repo WT Hash : Type} (env : Env σ Repo WT Hash)
    (url dstPath specifier : String) (w : σ) (e : GoError)
    (herr : (CloneRepo env url dstPath specifier w).1 = some e) :
    ErrorOrigin env url dstPath specifier w e := by
  obtain ⟨err, w9, calls, hp, hrun, -⟩ := CloneRepo_path env url dstPath specifier w
  rw [hrun] at herr
  simp only at herr
  subst herr
  cases hp with
  | resolveFailed e w1 hr => exact Or.inl ⟨w9, hr⟩
  | resolved h w1 err w2 calls hr hp =>
    refine Or.inr ⟨h, w1, hr, ?_⟩
    cases hp with
    | cloneFailed c w2 hc =>
      refine Or.inl ⟨c, w9, hc, rfl, ?_, ?_, rfl⟩
      · simp [GoError.Error, Wrap, downloadMessage, String.append_assoc]
      · refine ⟨"Error downloading repository (".data, ("): " ++ c.Error).data, ?_⟩
        simp [GoError.Error, Wrap, downloadMessage, String.append_assoc]
    | worktreeFailed r w2 c w3 hrev hc hw =>
      exact Or.inr (Or.inl ⟨r, w2, c, w9, hc, hw, rfl, rfl, rfl⟩)
    | checkoutFailed r w2 wt w3 c w4 hrev hc hw hk =>
      exact Or.inr (Or.inr ⟨r, w2, wt, w3, c, w9, hc, hw, hk, rfl, rfl, rfl⟩)

/-- Witness of the amended C4: cloning from a URL that no remote answers. -/
theorem CloneRepo_error_origin_witness :
    (CloneRepo sampleEnv "git://h/none" "/tmp/x" "" sampleWorld).1
        = some (Wrap (.base "repository not found")
            "Error downloading repository (git://h/none)") ∧
      ErrorOrigin sampleEnv "git://h/none" "/tmp/x" "" sampleWorld
        (Wrap (.base "repository not found")
          "Error downloading repository (git://h/none)") :=
  ⟨by decide, CloneRepo_error_origin sampleEnv "git://h/none" "/tmp/x" "" sampleWorld _
    (by decide)⟩

/-- C5. Over the model backend, in which a clone with checkout materialises
the default branch tip, a clone without checkout materialises nothing and a
checkout to `h` sets the working tree to the tree of `h`: whenever `CloneRepo`
succeeds with resolved revision `h`, the working tree at `dstPath` is the tree
of commit `h` of the repository at `url` when `h` is non-empty, and the tree of
its default branch tip when `h` is empty. -/
theorem CloneRepo_working_tree {Hash : Type} [DecidableEq Hash] (NewHash : String → Hash)
    (resolve : String → String → World Hash → Except GoError String)
    (url dstPath specifier h : String) (w : World Hash)
    (hres : resolve url specifier w = .ok h)
    (hok : (CloneRepo (modelEnv NewHash resolve) url dstPath specifier w).1 = none) :
    ∃ tree,
      (CloneRepo (modelEnv NewHash resolve) url dstPath specifier w).2.workTreeAt dstPath
        = some tree ∧
      (h ≠ "" → w.treeOf url (NewHash h) = some tree) ∧
      (h = "" → w.tipOf url = some tree) := by
  have hrun : CloneRepo (modelEnv NewHash resolve) url dstPath specifier w
      = CloneRevision (modelEnv NewHash resolve) url dstPath h w :=
    CloneRepo_of_resolved _ url dstPath specifier h w w (by simp [modelEnv, Env.initial, hres])
  rw [hrun] at hok ⊢
  simp only [CloneRevision, modelEnv, Env.initial, remoteRepoCloner, modelGit] at hok ⊢
  rcases hr : List.lookup url w.remotes with _ | remote
  · simp [hr] at hok
  · rcases hd : List.lookup dstPath w.locals with _ | l
    · by_cases hrev : h = ""
      · subst hrev
        simp [World.workTreeAt, World.tipOf, List.lookup, hr]
      · have hb : (h == "") = false := by simpa using hrev
        rcases hc : List.lookup (NewHash h) remote.commits with _ | tree
        · simp [hr, hd, hb, List.lookup, hc] at hok
        · simp [World.workTreeAt, World.treeOf, List.lookup, hr, hd, hb, hc, hrev]
    · simp [hr, hd] at hok

/-- Witness of C5: in the sample world the specifier `a1` resolves to `a1`,
the run succeeds and the working tree is the tree of commit `a1`. -/
theorem CloneRepo_working_tree_witness :
    sampleResolve "git://h/r" "a1" sampleWorld = .ok "a1" ∧
      (CloneRepo sampleEnv "git://h/r" "/tmp/x" "a1" sampleWorld).1 = none ∧
      (CloneRepo sampleEnv "git://h/r" "/tmp/x" "a1" sampleWorld).2.workTreeAt "/tmp/x"
        = some [("README", "one")] ∧
      ∃ tree,
        (CloneRepo sampleEnv "git://h/r" "/tmp/x" "a1" sampleWorld).2.workTreeAt "/tmp/x"
          = some tree ∧
        ("a1" ≠ "" → sampleWorld.treeOf "git://h/r" (id "a1") = some tree) ∧
        ("a1" = "" → sampleWorld.tipOf "git://h/r" = some tree) :=
  ⟨by decide, by decide, by decide,
    CloneRepo_working_tree id sampleResolve "git://h/r" "/tmp/x" "a1" "a1" sampleWorld
      (by decide) (by decide)⟩

/-- C6. `CloneRevision` calls the cloner's `Clone` once, first of all, with
exactly the arguments `(repoURL, dstPath, autoCheckout)`, where `autoCheckout`
is true if and only if `rev` is the empty string; any non-empty `rev` yields
`autoCheckout = false`. -/
theorem CloneRevision_clone_arguments {σ Repo WT Hash : Type} (env : Env σ Repo WT Hash)
    (repoURL dstPath rev : String) (w : σ) :
    ∃ autoCheckout : Bool, (autoCheckout = true ↔ rev = "") ∧
      (rev ≠ "" → autoCheckout = false) ∧
      ∃ failed rest,
        CloneRevision.log env repoURL dstPath rev w
          = ⟨.clone repoURL dstPath autoCheckout, failed⟩ :: rest ∧
        (failed = isError (env.defaultCloner.Clone repoURL dstPath autoCheckout w).1) ∧
        ∀ c ∈ rest, c.call.phase ≠ .clone := by
  refine ⟨rev == "", by simp, by simp, ?_⟩
  obtain ⟨err, w9, hp, -⟩ := CloneRevision_log_path env repoURL dstPath rev w
  generalize CloneRevision.log env repoURL dstPath rev w = log at hp
  cases hp with
  | cloneFailed e w1 hc => exact ⟨true, [], rfl, by simp [hc, isError], by simp⟩
  | auto r w1 hrev hc => exact ⟨false, [], rfl, by simp [hc, isError], by simp⟩
  | worktreeFailed r w1 e w2 hrev hc hw =>
    exact ⟨false, _, rfl, by simp [hc, isError], by simp [Call.phase]⟩
  | checkoutFailed r w1 wt w2 e w3 hrev hc hw hk =>
    exact ⟨false, _, rfl, by simp [hc, isError], by simp [Call.phase]⟩
  | checkedOut r w1 wt w2 w3 hrev hc hw hk =>
    exact ⟨false, _, rfl, by simp [hc, isError], by simp [Call.phase]⟩

/-- C7, as stated, fails: with a cloner that hands out a bare repository the
clone succeeds and `rev` is non-empty, the worktree is requested and refused,
and no checkout is requested. -/
theorem CloneRevision_worktree_without_checkout :
    (bareEnv.defaultCloner.Clone "git://h/r" "/tmp/x" ("a1" == "") sampleWorld).1
        = .ok "/tmp/x" ∧
      "a1" ≠ "" ∧
      CloneRevision.log bareEnv "git://h/r" "/tmp/x" "a1" sampleWorld
        = [⟨.clone "git://h/r" "/tmp/x" false, false⟩, ⟨.worktree, true⟩] ∧
      (CloneRevision bareEnv "git://h/r" "/tmp/x" "a1" sampleWorld).1
        = some (Wrap (.base "worktree not available in a bare repository")
            "Error getting the worktree") := by
  refine ⟨by decide, by decide, by decide, by decide⟩

/-- C7, amended. When the clone succeeds, `CloneRevision` requests the
worktree if and only if `rev` is non-empty, and requests a checkout if and
only if `rev` is non-empty and the worktree was obtained without error; the
checkout it requests has the hash built from `rev` as its target and no other
option set; when `rev` is empty the clone is the only call. -/
theorem CloneRevision_checkout_calls {σ Repo WT Hash : Type} (env : Env σ Repo WT Hash)
    (repoURL dstPath rev : String) (w : σ) (r : Repo) (w1 : σ)
    (hclone : env.defaultCloner.Clone repoURL dstPath (rev == "") w = (.ok r, w1)) :
    ((∃ c ∈ CloneRevision.log env repoURL dstPath rev w, c.call = .worktree) ↔ rev ≠ "") ∧
      ((∃ c ∈ CloneRevision.log env repoURL dstPath rev w, c.call.phase = .checkout) ↔
        rev ≠ "" ∧ ∃ wt w2, env.git.Worktree r w1 = (.ok wt, w2)) ∧
      (∀ c ∈ CloneRevision.log env repoURL dstPath rev w, c.call.phase = .checkout →
        c.call = .checkout ⟨env.git.NewHash rev, ⟨"", false, false, false⟩⟩) ∧
      (rev = "" →
        CloneRevision.log env repoURL dstPath rev w
          = [⟨.clone repoURL dstPath true, false⟩]) := by
  obtain ⟨err, w9, hp, -⟩ := CloneRevision_log_path env repoURL dstPath rev w
  generalize CloneRevision.log env repoURL dstPath rev w = log at hp
  cases hp with
  | cloneFailed e w1 hc =>
    rw [hc] at hclone
    simp at hclone
  | auto r2 w12 hrev hc =>
    subst hrev
    simp [Call.phase]
  | worktreeFailed r2 w12 e w2 hrev hc hw =>
    rw [hc] at hclone
    simp only [Prod.mk.injEq, Except.ok.injEq] at hclone
    obtain ⟨rfl, rfl⟩ := hclone
    simp [Call.phase, hrev, hw]
  | checkoutFailed r2 w12 wt w2 e w3 hrev hc hw hk =>
    rw [hc] at hclone
    simp only [Prod.mk.injEq, Except.ok.injEq] at hclone
    obtain ⟨rfl, rfl⟩ := hclone
    simp [Call.phase, hrev, hw]
  | checkedOut r2 w12 wt w2 w3 hrev hc hw hk =>
    rw [hc] at hclone
    simp only [Prod.mk.injEq, Except.ok.injEq] at hclone
    obtain ⟨rfl, rfl⟩ := hclone
    simp [Call.phase, hrev, hw]

/-- Witness of the amended C7: the sample environment, revision `a1`. -/
theorem CloneRevision_checkout_calls_witness :
    sampleEnv.defaultCloner.Clone "git://h/r" "/tmp/x" ("a1" == "") sampleWorld
        = (.ok "/tmp/x", sampleCloned) ∧
      ((∃ c ∈ CloneRevision.log sampleEnv "git://h/r" "/tmp/x" "a1" sampleWorld,
        c.call = .worktree) ↔ "a1" ≠ "") ∧
      ((∃ c ∈ CloneRevision.log sampleEnv "git://h/r" "/tmp/x" "a1" sampleWorld,
        c.call.phase = .checkout) ↔
          "a1" ≠ "" ∧ ∃ wt w2, sampleEnv.git.Worktree "/tmp/x" sampleCloned = (.ok wt, w2)) :=
  have h := CloneRevision_checkout_calls sampleEnv "git://h/r" "/tmp/x" "a1" sampleWorld
    "/tmp/x" sampleCloned (by decide)
  ⟨by decide, h.1, h.2.1⟩

/-- C8. The doc comment of `CloneRevision` promises a clone that downloads
the bare minimum for the given revision. For the revision `a1` of the sample
repository the plain clone that the default cloner issues asks for
`Depth = 0`, which is the whole history, of every branch, and the clone
brings the objects of both commits of the remote to the destination. -/
theorem CloneRevision_requests_full_history :
    (CloneRevision sampleRecorded "git://h/r" "/tmp/y" "a1" (sampleWorld, [])).2.2.head?
        = some ⟨.plainClone "/tmp/y" false
            ⟨"git://h/r", none, "", "", false, true, 0, 0, none, 0⟩, false⟩ ∧
      ((CloneRevision sampleRecorded "git://h/r" "/tmp/y" "a1" (sampleWorld, [])).2.1.locals.lookup
          "/tmp/y").map (fun l => l.objects.map Prod.fst) = some ["a1", "b2"] := by
  refine ⟨by decide, by decide⟩

/-- C9. The cloner `remoteRepoCloner` issues a non-bare plain clone to
`path` whose options are exactly `Depth = 0`, `URL = url` and
`NoCheckout = not autoCheckout`, every other option at its zero value; hence
the plain clone that `CloneRevision` issues in the package as initialised,
the first call of the run and the only plain clone, skips the working tree if
and only if `rev` is non-empty, and never asks for a shallow fetch. -/
theorem remoteRepoCloner_clone_options {σ Repo WT Hash : Type} (git : GitLib σ Repo WT Hash)
    (res : String → String → σ → Except GoError String × σ)
    (url path : String) (autoCheckout : Bool) (repoURL dstPath rev : String) (w : σ) :
    (remoteRepoCloner git).Clone url path autoCheckout w
        = git.PlainCloneContext path false
            ⟨url, none, "", "", false, !autoCheckout, 0, 0, none, 0⟩ w ∧
      ∃ o failed rest,
        (CloneRevision (Env.initialRecorded git res) repoURL dstPath rev (w, [])).2.2
          = ⟨.plainClone dstPath false o, failed⟩ :: rest ∧
        (∀ c ∈ rest, c.call.phase ≠ .plainClone) ∧
        o = ⟨repoURL, none, "", "", false, !(rev == ""), 0, 0, none, 0⟩ ∧
        (o.NoCheckout = true ↔ rev ≠ "") ∧
        o.Depth = 0 := by
  refine ⟨rfl, ?_⟩
  obtain ⟨failed, rest, hlog, hrest⟩ := initialRecorded_log git res repoURL dstPath rev w
  exact ⟨_, failed, rest, hlog, hrest, rfl, by simp, rfl⟩

/-- C10. The calls of one run of `CloneRepo` are, in this order, an initial
part of resolve, clone, worktree, checkout, each made at most once; every
call but the last succeeded, so that nothing is invoked after a failure; and
when the resolved revision is empty the calls are resolve and clone only. -/
theorem CloneRepo_phase_order {σ Repo WT Hash : Type} (env : Env σ Repo WT Hash)
    (url dstPath specifier : String) (w : σ) :
    (CloneRepo.log env url dstPath specifier w).map (fun c => c.call.phase)
        <+: [.resolve, .clone, .worktree, .checkout] ∧
      ((CloneRepo.log env url dstPath specifier w).map (fun c => c.call.phase)).Nodup ∧
      (CloneRepo.log env url dstPath specifier w).head?.map (fun c => c.call)
        = some (.resolve url specifier) ∧
      (∀ c ∈ (CloneRepo.log env url dstPath specifier w).dropLast, c.failed = false) ∧
      (((CloneRepo env url dstPath specifier w).1.isSome = true) ↔
        (CloneRepo.log env url dstPath specifier w).getLast?.map (fun c => c.failed)
          = some true) ∧
      (∀ w1, env.ResolveRevision url specifier w = (.ok "", w1) →
        (CloneRepo.log env url dstPath specifier w).map (fun c => c.call.phase)
          = [.resolve, .clone]) := by
  obtain ⟨err, w9, hp, hrun⟩ := CloneRepo_log_path env url dstPath specifier w
  rw [hrun]
  generalize CloneRepo.log env url dstPath specifier w = log at hp
  cases hp with
  | resolveFailed e w1 hr =>
    refine ⟨?_, by simp, rfl, by simp, by simp, ?_⟩
    · exact ⟨[.clone, .worktree, .checkout], rfl⟩
    · intro w1 h
      rw [hr] at h
      simp at h
  | resolved h w1 err w2 calls hr hp =>
    cases hp with
    | cloneFailed e w2 hc =>
      refine ⟨?_, by simp [Call.phase], rfl, by simp, by simp, ?_⟩
      · exact ⟨[.worktree, .checkout], rfl⟩
      · intro _ _
        rfl
    | auto r w2 hrev hc =>
      refine ⟨?_, by simp [Call.phase], rfl, by simp, by simp, ?_⟩
      · exact ⟨[.worktree, .checkout], rfl⟩
      · intro _ _
        rfl
    | worktreeFailed r w2 e w3 hrev hc hw =>
      refine ⟨?_, by simp [Call.phase], rfl, by simp, by simp, ?_⟩
      · exact ⟨[.checkout], rfl⟩
      · intro w1b hb
        rw [hr] at hb
        simp only [Prod.mk.injEq, Except.ok.injEq] at hb
        exact absurd hb.1 hrev
    | checkoutFailed r w2 wt w3 e w4 hrev hc hw hk =>
      refine ⟨?_, by simp [Call.phase], rfl, by simp, by simp, ?_⟩
      · exact ⟨[], rfl⟩
      · intro w1b hb
        rw [hr] at hb
        simp only [Prod.mk.injEq, Except.ok.injEq] at hb
        exact absurd hb.1 hrev
    | checkedOut r w2 wt w3 w4 hrev hc hw hk =>
      refine ⟨?_, by simp [Call.phase], rfl, by simp, by simp, ?_⟩
      · exact ⟨[], rfl⟩
      · intro w1b hb
        rw [hr] at hb
        simp only [Prod.mk.injEq, Except.ok.injEq] at hb
        exact absurd hb.1 hrev

/-- Witness of C10: in the sample world the empty specifier resolves to the
empty revision, and the calls are resolve and clone. -/
theorem CloneRepo_phase_order_witness :
    sampleEnv.ResolveRevision "git://h/r" "" sampleWorld = (.ok "", sampleWorld) ∧
      (CloneRepo.log sampleEnv "git://h/r" "/tmp/x" "" sampleWorld).map
        (fun c => c.call.phase) = [.resolve, .clone] :=
  ⟨by decide,
    (CloneRepo_phase_order sampleEnv "git://h/r" "/tmp/x" "" sampleWorld).2.2.2.2.2
      sampleWorld (by decide)⟩

end Hydroform
